import Mathlib

/-!
Verification of the Recommendation & Forecasting Engine of the
CC_Agent_Sales_Analysis repository.

All numeric code is modelled over `ℚ` (exact arithmetic in place of Python
floats and pandas numeric columns); identifiers such as agent ids, card ids
and month labels are modelled as `ℕ` (opaque tokens; the `YYYY-MM` month
label is replaced by a month index that orders the same way).

Each definition is a direct translation of a function of the source tree,
named after it where Lean allows.
-/

namespace SalesAnalysis

/-! ### Metrics primitives (`src/utils/metrics.py`) -/

/-- Embeds `calculate_success_rate` from `src/utils/metrics.py`:
`0` when `total_sales == 0`, else `successful_sales / total_sales`. -/
def calculate_success_rate (successful_sales total_sales : ℚ) : ℚ :=
  if total_sales = 0 then 0 else successful_sales / total_sales

/-- Embeds `calculate_avg_commission` from `src/utils/metrics.py`:
`0` when `successful_sales == 0`, else `total_commission / successful_sales`. -/
def calculate_avg_commission (total_commission successful_sales : ℚ) : ℚ :=
  if successful_sales = 0 then 0 else total_commission / successful_sales

/-! ### Income segmentation

`pd.cut(income, bins=[0, 300000, 600000, 1000000, inf],
        labels=['Low', 'Medium', 'High', 'Very High'])`
as used in `card_service.py`, `lead_service.py` and `agent_service.py`.
`pd.cut` defaults to `right=True`, so the bins are the half-open intervals
`(0, 300000]`, `(300000, 600000]`, `(600000, 1000000]`, `(1000000, inf)`
(exclusive lower bound, inclusive upper bound); a value outside every bin
(here: `income ≤ 0`) is mapped to `NaN`, modelled as `none`. -/

inductive IncomeSegment where
  | Low | Medium | High | VeryHigh
deriving DecidableEq, Repr

/-- The income-segment bucketing performed by `pd.cut` in the services:
the bins are consecutive, so a value is placed by the first upper cut point
at or above it, and values at or below the lowest cut point get `NaN`. -/
def incomeSegment (income : ℚ) : Option IncomeSegment :=
  if income ≤ 0 then none
  else if income ≤ 300000 then some .Low
  else if income ≤ 600000 then some .Medium
  else if income ≤ 1000000 then some .High
  else some .VeryHigh

/-! ### C7: zero-denominator guards -/

/-- C7: for all non-negative inputs, `calculate_success_rate s 0 = 0` and
`calculate_avg_commission c 0 = 0`; both functions are total Lean functions,
so no division error can be raised. -/
theorem metrics_zero_denominator (s c : ℚ) (_hs : 0 ≤ s) (_hc : 0 ≤ c) :
    calculate_success_rate s 0 = 0 ∧ calculate_avg_commission c 0 = 0 := by
  constructor <;> simp [calculate_success_rate, calculate_avg_commission]

/-- Witness for C7 at `s = 3`, `c = 7`. -/
theorem metrics_zero_denominator_witness :
    (0:ℚ) ≤ 3 ∧ (0:ℚ) ≤ 7 ∧
      (calculate_success_rate 3 0 = 0 ∧ calculate_avg_commission 7 0 = 0) :=
  ⟨by norm_num, by norm_num, metrics_zero_denominator 3 7 (by norm_num) (by norm_num)⟩

/-! ### C1: income segmentation boundaries -/

/-- C1 counterexample: the claim says an income of exactly `300000` is
labeled `"Medium"`, but `pd.cut` with its default `right=True` puts
`300000` in the bin `(0, 300000]`, i.e. `"Low"`. -/
theorem incomeSegment_300000_low :
    incomeSegment 300000 = some IncomeSegment.Low ∧
      IncomeSegment.Low ≠ IncomeSegment.Medium := by
  constructor
  · simp [incomeSegment]
  · decide

/-- C1 amended: every positive income is assigned exactly one of the four
buckets, with exclusive lower and inclusive upper bounds:
`(0,300000] = Low`, `(300000,600000] = Medium`, `(600000,1000000] = High`,
`(1000000,∞) = Very High`; in particular both `300000` and `299999` are
labeled `"Low"`. Non-positive incomes fall outside every bucket. -/
theorem incomeSegment_buckets (x : ℚ) (hx : 0 < x) :
    incomeSegment x = some
      (if x ≤ 300000 then IncomeSegment.Low
       else if x ≤ 600000 then IncomeSegment.Medium
       else if x ≤ 1000000 then IncomeSegment.High
       else IncomeSegment.VeryHigh) := by
  unfold incomeSegment
  split_ifs <;> first | rfl | linarith

/-- Witness for C1 amended at `x = 299999` (labeled `"Low"`). -/
theorem incomeSegment_buckets_witness :
    incomeSegment 299999 = some IncomeSegment.Low := by
  simpa using incomeSegment_buckets 299999 (by norm_num)

/-! ### List minimum / maximum helpers

`pandas.Series.min()` / `.max()` over a (nonempty) column; the `[]` case
returns `0` and is unreachable in the uses below. -/

variable {α : Type} [LinearOrder α]

def listMax [Zero α] (l : List α) : α :=
  match l with
  | [] => 0
  | x :: xs => xs.foldl max x

def listMin [Zero α] (l : List α) : α :=
  match l with
  | [] => 0
  | x :: xs => xs.foldl min x

theorem le_foldl_max (xs : List α) (a : α) : a ≤ xs.foldl max a := by
  induction xs generalizing a with
  | nil => simp
  | cons x xs ih => exact le_trans (le_max_left a x) (ih (max a x))

theorem mem_le_foldl_max (xs : List α) (a b : α) (h : b ∈ xs) :
    b ≤ xs.foldl max a := by
  induction xs generalizing a with
  | nil => cases h
  | cons x xs ih =>
    rcases List.mem_cons.mp h with rfl | h
    · exact le_trans (le_max_right a b) (le_foldl_max xs (max a b))
    · exact ih (max a x) h

theorem foldl_max_mem (xs : List α) (a : α) :
    xs.foldl max a = a ∨ xs.foldl max a ∈ xs := by
  induction xs generalizing a with
  | nil => left; rfl
  | cons x xs ih =>
    rcases ih (max a x) with h | h
    · rcases max_choice a x with hm | hm
      · left; rw [List.foldl_cons, h, hm]
      · right; rw [List.foldl_cons, h, hm]; exact List.mem_cons_self x xs
    · right; exact List.mem_cons_of_mem x h

theorem le_listMax [Zero α] {l : List α} {a : α} (h : a ∈ l) : a ≤ listMax l := by
  match l with
  | x :: xs =>
    rcases List.mem_cons.mp h with rfl | h
    · exact le_foldl_max xs a
    · exact mem_le_foldl_max xs x a h

theorem listMax_mem [Zero α] {l : List α} (h : l ≠ []) : listMax l ∈ l := by
  match l with
  | x :: xs =>
    rcases foldl_max_mem xs x with h' | h'
    · rw [listMax, h']; exact List.mem_cons_self x xs
    · exact List.mem_cons_of_mem x h'

theorem foldl_min_le (xs : List α) (a : α) : xs.foldl min a ≤ a := by
  induction xs generalizing a with
  | nil => simp
  | cons x xs ih => exact le_trans (ih (min a x)) (min_le_left a x)

theorem foldl_min_le_mem (xs : List α) (a b : α) (h : b ∈ xs) :
    xs.foldl min a ≤ b := by
  induction xs generalizing a with
  | nil => cases h
  | cons x xs ih =>
    rcases List.mem_cons.mp h with rfl | h
    · exact le_trans (foldl_min_le xs (min a b)) (min_le_right a b)
    · exact ih (min a x) h

theorem foldl_min_mem (xs : List α) (a : α) :
    xs.foldl min a = a ∨ xs.foldl min a ∈ xs := by
  induction xs generalizing a with
  | nil => left; rfl
  | cons x xs ih =>
    rcases ih (min a x) with h | h
    · rcases min_choice a x with hm | hm
      · left; rw [List.foldl_cons, h, hm]
      · right; rw [List.foldl_cons, h, hm]; exact List.mem_cons_self x xs
    · right; exact List.mem_cons_of_mem x h

theorem listMin_le [Zero α] {l : List α} {a : α} (h : a ∈ l) : listMin l ≤ a := by
  match l with
  | x :: xs =>
    rcases List.mem_cons.mp h with rfl | h
    · exact foldl_min_le xs a
    · exact foldl_min_le_mem xs x a h

theorem listMin_mem [Zero α] {l : List α} (h : l ≠ []) : listMin l ∈ l := by
  match l with
  | x :: xs =>
    rcases foldl_min_mem xs x with h' | h'
    · rw [listMin, h']; exact List.mem_cons_self x xs
    · exact List.mem_cons_of_mem x h'

/-! ### Fit-scoring engine (`CardService._calculate_card_fit_score`)

A row of the per-card aggregate built by
`sales_data.groupby('card_id').agg(...)` followed by the
`calculate_success_rate` / `calculate_avg_commission` columns.  The same
shape serves for the network-wide aggregate (`card_performance`) and for
the agent's own aggregate (`agent_card_performance`). -/

structure CardPerf where
  card_id : ℕ
  success_rate : ℚ
  avg_commission : ℚ
deriving DecidableEq, Repr

/-- Embeds `card_performance['avg_commission'].max()`. -/
def maxAvgCommission (cards : List CardPerf) : ℚ :=
  listMax (cards.map (·.avg_commission))

/-- Embeds `base_score = success_rate * 0.4 + (avg_commission / avg_commission.max()) * 0.6`
(`card_service.py` lines 437-440). -/
def base_score (cards : List CardPerf) (c : CardPerf) : ℚ :=
  c.success_rate * 0.4 + c.avg_commission / maxAvgCommission cards * 0.6

/-- Embeds `calc_agent_bonus` (`card_service.py` lines 449-461): `+0.2` when the
agent's success rate on the card exceeds `0.5` with positive average
commission, `-0.1` when the agent's success rate is below `0.3` and the
agent has sold more than 2 distinct cards, else `0`; `0` when the agent has
never sold the card (also covering the `len(agent_card_performance) == 0`
outer branch). -/
def calc_agent_bonus (agent_card_performance : List CardPerf) (cid : ℕ) : ℚ :=
  match agent_card_performance.find? (fun a => a.card_id == cid) with
  | some a =>
      if 0.5 < a.success_rate ∧ 0 < a.avg_commission then 0.2
      else if a.success_rate < 0.3 ∧ 2 < agent_card_performance.length then -0.1
      else 0
  | none => 0

/-- The raw (pre-normalization) fit score `base_score + agent_bonus`. -/
def fit_raw (cards agent_card_performance : List CardPerf) (c : CardPerf) : ℚ :=
  base_score cards c + calc_agent_bonus agent_card_performance c.card_id

/-- The min-max normalization of `card_service.py` lines 471-474: applied
only when `max_score > min_score`; otherwise the scores are returned
unchanged. -/
def normalize_scores (scores : List ℚ) : List ℚ :=
  if listMin scores < listMax scores then
    scores.map (fun s => (s - listMin scores) / (listMax scores - listMin scores))
  else scores

/-- Embeds `CardService._calculate_card_fit_score`: raw fit scores of the
candidate set, min-max normalized when the scores are not all equal. -/
def calculate_card_fit_score (cards agent_card_performance : List CardPerf) : List ℚ :=
  normalize_scores (cards.map (fit_raw cards agent_card_performance))

theorem normalize_scores_bounds {l : List ℚ} (hne : l ≠ [])
    (hlt : listMin l < listMax l) :
    (∀ s ∈ normalize_scores l, 0 ≤ s ∧ s ≤ 1) ∧
      (1:ℚ) ∈ normalize_scores l ∧ (0:ℚ) ∈ normalize_scores l := by
  have hpos : 0 < listMax l - listMin l := sub_pos.mpr hlt
  rw [normalize_scores, if_pos hlt]
  refine ⟨?_, ?_, ?_⟩
  · intro s hs
    obtain ⟨t, ht, rfl⟩ := List.mem_map.mp hs
    constructor
    · exact div_nonneg (sub_nonneg.mpr (listMin_le ht)) (le_of_lt hpos)
    · exact (div_le_one hpos).mpr (sub_le_sub_right (le_listMax ht) _)
  · have : (listMax l - listMin l) / (listMax l - listMin l) = 1 :=
      div_self (ne_of_gt hpos)
    exact this ▸ List.mem_map_of_mem _ (listMax_mem hne)
  · have : (listMin l - listMin l) / (listMax l - listMin l) = 0 := by
      rw [sub_self, zero_div]
    exact this ▸ List.mem_map_of_mem _ (listMin_mem hne)

/-- C2 counterexample: for the single-card candidate set with network
success rate `1` and average commission `5`, scored for an agent whose own
aggregate on that card is the same, the raw score is
`1*0.4 + (5/5)*0.6 + 0.2 = 1.2`; `max == min`, and the code returns the
scores unchanged: the resulting "normalized" score is `1.2`, which is
neither `0` (as the claim requires for the all-equal case) nor within
`[0,1]`. -/
theorem fit_score_degenerate_counterexample :
    calculate_card_fit_score [⟨0, 1, 5⟩] [⟨0, 1, 5⟩] = [1.2] ∧
      ¬ ((1.2:ℚ) = 0) ∧ ¬ ((1.2:ℚ) ≤ 1) := by
  refine ⟨?_, by norm_num, by norm_num⟩
  norm_num [calculate_card_fit_score, normalize_scores, fit_raw, base_score,
    maxAvgCommission, calc_agent_bonus, listMin, listMax, List.find?]

/-- C2 amended: for a nonempty candidate set, when the raw fit scores are
not all equal the normalized scores lie in `[0,1]` and both `1` and `0` are
attained; when the raw scores are all equal (`max == min`) the scores are
returned unchanged at their common raw value (not set to `0`, and possibly
outside `[0,1]`). -/
theorem fit_score_normalization (cards agent_card_performance : List CardPerf)
    (hne : cards ≠ []) :
    (listMin (cards.map (fit_raw cards agent_card_performance)) <
        listMax (cards.map (fit_raw cards agent_card_performance)) →
      (∀ s ∈ calculate_card_fit_score cards agent_card_performance, 0 ≤ s ∧ s ≤ 1) ∧
        (1:ℚ) ∈ calculate_card_fit_score cards agent_card_performance ∧
        (0:ℚ) ∈ calculate_card_fit_score cards agent_card_performance) ∧
    (listMin (cards.map (fit_raw cards agent_card_performance)) =
        listMax (cards.map (fit_raw cards agent_card_performance)) →
      calculate_card_fit_score cards agent_card_performance =
        cards.map (fit_raw cards agent_card_performance)) := by
  constructor
  · intro hlt
    exact normalize_scores_bounds (by simpa using hne) hlt
  · intro heq
    rw [calculate_card_fit_score, normalize_scores, if_neg (by rw [heq]; exact lt_irrefl _)]

/-- Witness for C2 amended: candidate set
`[{card 0, rate 1, comm 10}, {card 1, rate 0, comm 5}]`, empty agent
aggregate; the raw scores are `[1, 0.3]`, so normalization applies and both
`1` and `0` appear among the normalized scores. -/
theorem fit_score_normalization_witness :
    ([⟨0, 1, 10⟩, ⟨1, 0, 5⟩] : List CardPerf) ≠ [] ∧
      (1:ℚ) ∈ calculate_card_fit_score [⟨0, 1, 10⟩, ⟨1, 0, 5⟩] [] ∧
      (0:ℚ) ∈ calculate_card_fit_score [⟨0, 1, 10⟩, ⟨1, 0, 5⟩] [] := by
  refine ⟨by simp, ?_, ?_⟩
  · exact ((fit_score_normalization [⟨0, 1, 10⟩, ⟨1, 0, 5⟩] [] (by simp)).1
      (by norm_num [fit_raw, base_score, maxAvgCommission, calc_agent_bonus,
        listMin, listMax])).2.1
  · exact ((fit_score_normalization [⟨0, 1, 10⟩, ⟨1, 0, 5⟩] [] (by simp)).1
      (by norm_num [fit_raw, base_score, maxAvgCommission, calc_agent_bonus,
        listMin, listMax])).2.2

/-! ### Predictor abstraction (`src/models/success_predictor.py`,
`src/models/commission_predictor.py`)

Customer dictionaries reach the predictors with optional keys read through
`customer_data.get(key, default)`; an absent key is `none`. -/

structure Customer where
  age : Option ℤ
  income : Option ℚ
  credit_score : Option ℚ
  employment_type : Option String

/-- Embeds `SuccessPredictor._basic_prediction` (`success_predictor.py` lines
228-264): the closed-form heuristic used whenever the model is untrained. -/
def basic_prediction (c : Customer) : ℚ :=
  let credit_score := c.credit_score.getD 650
  let credit_factor := min 1 (max 0 ((credit_score - 600) / 300))
  let income := c.income.getD 300000
  let income_factor := min 1 (max 0 ((income - 200000) / 800000))
  let age := c.age.getD 35
  let age_factor : ℚ :=
    if age < 21 then 0.5
    else if age < 25 then 0.8
    else if age ≤ 55 then 1.0
    else if age ≤ 65 then 0.9
    else 0.7
  min 0.9 (max 0.1 (0.3 + (credit_factor * 0.3 + income_factor * 0.3 + age_factor * 0.1)))

/-- Embeds `SuccessPredictor.predict_probability`: dispatch between the fitted
model (external; its output is the `model_prob` parameter) and the
heuristic.  The card id is unused by the heuristic. -/
def predict_probability (trained : Bool) (model_prob : ℚ) (c : Customer)
    (card_id : ℕ) : ℚ :=
  if trained then model_prob else basic_prediction c

/-- C4: with untrained predictors, the customer
`{income: 1200000, credit_score: 800, age: 40, employment_type: "Salaried"}`
gets heuristic success probability exactly `0.9` for every card
(modelled in exact rational arithmetic):
`credit_factor = 2/3`, `income_factor = 1`, `age_factor = 1`, so
`0.3 + (2/3)*0.3 + 1*0.3 + 1*0.1 = 0.9`, and the clamp to `[0.1, 0.9]`
leaves it at `0.9`. -/
theorem predict_probability_untrained_scenario (card_id : ℕ) (model_prob : ℚ) :
    predict_probability false model_prob
      ⟨some 40, some 1200000, some 800, some "Salaried"⟩ card_id = 0.9 := by
  norm_num [predict_probability, basic_prediction]

/-- The mutable state of `CommissionPredictor`: whether `self.model` is
set, and the `self.avg_commission` fallback scalar. -/
structure CommissionPredictorState where
  trained : Bool
  avg_commission : ℚ
deriving DecidableEq, Repr

/-- Embeds `pandas.Series.mean()`; the empty case (`NaN` in pandas) is modelled as
`0` and is unreachable in the uses below (all call sites guard on a
nonempty series). -/
def mean (l : List ℚ) : ℚ :=
  if l.length = 0 then 0 else l.sum / l.length

/-- Embeds `CommissionPredictor.__init__`: untrained, `avg_commission = 1000`. -/
def commissionPredictorInit : CommissionPredictorState := ⟨false, 1000⟩

/-- Embeds `CommissionPredictor.train` (lines 39-118): fails before touching any
state when fewer than 30 rows or a required column (`commission`,
`card_id`) is missing; otherwise stores the mean commission of the training
rows, then fits the external model (`fit_ok` abstracts whether `fit`
raised), becoming trained exactly when the fit succeeded. -/
def CommissionPredictor.train (s : CommissionPredictorState)
    (commissions : List ℚ) (has_required_cols fit_ok : Bool) :
    CommissionPredictorState × Bool :=
  if commissions.length < 30 then (s, false)
  else if ¬ has_required_cols then (s, false)
  else if fit_ok then (⟨true, mean commissions⟩, true)
  else (⟨s.trained, mean commissions⟩, false)

/-- Embeds `CommissionPredictor.predict_commission` (lines 120-166): the stored
`avg_commission` when untrained, else the external model output clamped to
be non-negative (`model_output` abstracts `self.model.predict(X)[0]`). -/
def CommissionPredictor.predict_commission (s : CommissionPredictorState)
    (model_output : ℚ) : ℚ :=
  if s.trained then max 0 model_output else s.avg_commission

/-- C5: an untrained `CommissionPredictor` predicts the average commission
of the training set it was given (stored whenever a `train` call passed the
row-count and column guards, even if the fit itself failed), and the fixed
default `1000` when it was never given an accepted training set; a fresh
predictor always predicts `1000`. -/
theorem commission_untrained_fallback (commissions : List ℚ)
    (has_required_cols fit_ok : Bool) (model_output : ℚ)
    (h : ((CommissionPredictor.train commissionPredictorInit commissions
        has_required_cols fit_ok).1).trained = false) :
    CommissionPredictor.predict_commission
        (CommissionPredictor.train commissionPredictorInit commissions
          has_required_cols fit_ok).1 model_output =
      (if 30 ≤ commissions.length ∧ has_required_cols = true
        then mean commissions else 1000) ∧
    CommissionPredictor.predict_commission commissionPredictorInit model_output = 1000 := by
  refine ⟨?_, rfl⟩
  unfold CommissionPredictor.train at h ⊢
  split_ifs at h ⊢ with h1 h2 h3 <;>
    simp_all [CommissionPredictor.predict_commission, commissionPredictorInit] <;>
    omega

/-- Witness for C5: training on 30 rows of commission `2000` with the
required columns present but a failing fit leaves the predictor untrained
and predicting the training mean `2000`. -/
theorem commission_untrained_fallback_witness :
    ((CommissionPredictor.train commissionPredictorInit
        (List.replicate 30 2000) true false).1).trained = false ∧
      CommissionPredictor.predict_commission
          (CommissionPredictor.train commissionPredictorInit
            (List.replicate 30 2000) true false).1 777 =
        (if 30 ≤ (List.replicate 30 (2000:ℚ)).length ∧ true = true
          then mean (List.replicate 30 2000) else 1000) :=
  ⟨by decide, (commission_untrained_fallback (List.replicate 30 2000) true false 777
      (by decide)).1⟩

/-! ### Sale records and the per-card aggregation

A row of the sales snapshot, with the fields the claims exercise
(`sale_id` is only ever counted, so a row is its own witness; the
`YYYY-MM` month label of `date` is the `month` index). -/

structure SaleRec where
  agent_id : ℕ
  card_id : ℕ
  month : ℕ
  success : Bool
  commission : ℚ
deriving DecidableEq, Repr

/-- Key-comparison relation used to model sorting a dataframe by a rational
column. -/
def keyLE {α : Type} (key : α → ℚ) (a b : α) : Prop := key a ≤ key b

instance {α : Type} (key : α → ℚ) : DecidableRel (keyLE key) :=
  fun a b => inferInstanceAs (Decidable (key a ≤ key b))

instance {α : Type} (key : α → ℚ) : IsTotal α (keyLE key) :=
  ⟨fun a b => le_total (key a) (key b)⟩

instance {α : Type} (key : α → ℚ) : IsTrans α (keyLE key) :=
  ⟨fun _ _ _ => le_trans⟩

/-- Embeds `DataFrame.sort_values(column, ascending=False)`: pandas
`nargsort` reverses the rows *before* taking a stable ascending argsort and
reverses the resulting indexer *afterwards*, so the double reversal cancels
on ties and equal keys keep their original relative order (a stable
descending sort).  On the array sizes exercised here numpy's default sort
runs its stable insertion-sort path, modelled by `List.insertionSort`. -/
def sort_values_desc {α : Type} (key : α → ℚ) (l : List α) : List α :=
  (List.insertionSort (keyLE key) l.reverse).reverse

/-- Embeds `sales_data.groupby('card_id').agg({'sale_id': 'count',
'success_flag': 'sum', 'commission': 'sum'})` followed by the
`success_rate` / `avg_commission` columns: one aggregate row per distinct
card id, in ascending card-id order (pandas `groupby` sorts its keys). -/
def perCardStats (sales : List SaleRec) : List CardPerf :=
  (List.insertionSort (· ≤ ·) ((sales.map (·.card_id)).dedup)).map fun cid =>
    let rows := sales.filter (fun r => r.card_id == cid)
    let total : ℚ := rows.length
    let succ : ℚ := (rows.filter (·.success)).length
    let comm : ℚ := (rows.map (·.commission)).sum
    ⟨cid, calculate_success_rate succ total, calculate_avg_commission comm succ⟩

/-- A candidate card together with its computed `fit_score` column. -/
structure ScoredCard where
  perf : CardPerf
  fit_score : ℚ
deriving DecidableEq, Repr

/-- Attach the `fit_score` column produced by
`CardService._calculate_card_fit_score` to the candidate rows. -/
def scoreCards (cards agent_card_performance : List CardPerf) : List ScoredCard :=
  (cards.zip (calculate_card_fit_score cards agent_card_performance)).map
    fun p => ⟨p.1, p.2⟩

/-- Embeds `sales_data[sales_data['agent_id'] == agent_id]`. -/
def agentSales (sales : List SaleRec) (agent_id : ℕ) : List SaleRec :=
  sales.filter (fun r => r.agent_id == agent_id)

/-- The fully ranked candidate list of `CardService.recommend_cards` for an
agent with history (line 194: `sort_values('fit_score', ascending=False)`),
before the `head(limit)` truncation. -/
def rankCards (sales : List SaleRec) (agent_id : ℕ) : List ScoredCard :=
  sort_values_desc (·.fit_score)
    (scoreCards (perCardStats sales) (perCardStats (agentSales sales agent_id)))

/-- Embeds `beginner_score = success_rate * 0.7 + (avg_commission / max) * 0.3`
(`card_service.py` lines 398-401). -/
def beginner_score (cards : List CardPerf) (c : CardPerf) : ℚ :=
  c.success_rate * 0.7 + c.avg_commission / maxAvgCommission cards * 0.3

/-- Embeds `CardService._recommend_for_new_agent`: rank all cards by beginner
score, descending, truncated to `limit`. -/
def recommend_for_new_agent (sales : List SaleRec) (limit : ℕ) : List ScoredCard :=
  (sort_values_desc (·.fit_score)
    ((perCardStats sales).map fun c => ⟨c, beginner_score (perCardStats sales) c⟩)).take limit

/-- Embeds `CardService.recommend_cards`: the new-agent path when the agent has no
sales, else the fit-score ranking truncated to `limit`. -/
def recommend_cards (sales : List SaleRec) (agent_id limit : ℕ) : List ScoredCard :=
  if (agentSales sales agent_id).isEmpty then recommend_for_new_agent sales limit
  else (rankCards sales agent_id).take limit

theorem calculate_card_fit_score_length (cards agent_card_performance : List CardPerf) :
    (calculate_card_fit_score cards agent_card_performance).length = cards.length := by
  unfold calculate_card_fit_score normalize_scores
  split_ifs <;> simp

theorem scoreCards_map_perf (cards agent_card_performance : List CardPerf) :
    (scoreCards cards agent_card_performance).map (·.perf) = cards := by
  unfold scoreCards
  rw [List.map_map]
  exact List.map_fst_zip _ _ (le_of_eq (calculate_card_fit_score_length _ _).symm)

theorem scoreCards_length (cards agent_card_performance : List CardPerf) :
    (scoreCards cards agent_card_performance).length = cards.length := by
  have h := congrArg List.length (scoreCards_map_perf cards agent_card_performance)
  simpa using h

theorem perCardStats_map_card_id (sales : List SaleRec) :
    (perCardStats sales).map (·.card_id) =
      List.insertionSort (· ≤ ·) ((sales.map (·.card_id)).dedup) := by
  unfold perCardStats
  rw [List.map_map]
  exact List.map_id _

theorem perCardStats_ids_nodup (sales : List SaleRec) :
    ((perCardStats sales).map (·.card_id)).Nodup := by
  rw [perCardStats_map_card_id]
  exact (List.perm_insertionSort _ _).symm.nodup (List.nodup_dedup _)

/-- C3: for an agent with sales history, `recommend_cards` is sorted in
descending order of fit score, contains no duplicate cards, omits no
candidate unless the candidate set exceeds the limit (returning
`min limit (number of candidates)` cards), and equal-score cards appear in
their original candidate order: the descending sort is stable, because
pandas reverses the rows both before and after the stable ascending
argsort. -/
theorem recommend_cards_props (sales : List SaleRec) (agent_id limit : ℕ)
    (h : agentSales sales agent_id ≠ []) :
    List.Pairwise (fun a b : ScoredCard => b.fit_score ≤ a.fit_score)
        (recommend_cards sales agent_id limit) ∧
      ((recommend_cards sales agent_id limit).map (·.perf.card_id)).Nodup ∧
      ((perCardStats sales).length ≤ limit →
        List.Perm (recommend_cards sales agent_id limit)
          (scoreCards (perCardStats sales) (perCardStats (agentSales sales agent_id)))) ∧
      (recommend_cards sales agent_id limit).length =
        min limit (perCardStats sales).length ∧
      (∀ a b : ScoredCard,
        List.Sublist [a, b]
            (scoreCards (perCardStats sales) (perCardStats (agentSales sales agent_id))) →
          a.fit_score = b.fit_score →
          List.Sublist [a, b] (rankCards sales agent_id)) := by
  have hout : recommend_cards sales agent_id limit = (rankCards sales agent_id).take limit := by
    rw [recommend_cards, if_neg (by simpa [List.isEmpty_iff] using h)]
  have hlen : (rankCards sales agent_id).length =
      (scoreCards (perCardStats sales) (perCardStats (agentSales sales agent_id))).length := by
    simp [rankCards, sort_values_desc, List.length_insertionSort]
  refine ⟨?_, ?_, ?_, ?_, ?_⟩
  · rw [hout]
    refine List.Pairwise.sublist (List.take_sublist _ _) ?_
    rw [rankCards, sort_values_desc, List.pairwise_reverse]
    exact List.sorted_insertionSort (keyLE (fun s : ScoredCard => s.fit_score)) _
  · rw [hout]
    refine List.Nodup.sublist
      ((List.take_sublist limit (rankCards sales agent_id)).map
        (fun s : ScoredCard => s.perf.card_id)) ?_
    have hperm : List.Perm (rankCards sales agent_id)
        (scoreCards (perCardStats sales) (perCardStats (agentSales sales agent_id))) :=
      (List.reverse_perm _).trans
        ((List.perm_insertionSort _ _).trans (List.reverse_perm _))
    refine (hperm.map (·.perf.card_id)).symm.nodup ?_
    have : (scoreCards (perCardStats sales)
        (perCardStats (agentSales sales agent_id))).map (·.perf.card_id) =
        (perCardStats sales).map (·.card_id) := by
      rw [show ((·.perf.card_id) : ScoredCard → ℕ) = (fun c : CardPerf => c.card_id) ∘ (·.perf)
          from rfl, ← List.map_map, scoreCards_map_perf]
    rw [this]
    exact perCardStats_ids_nodup sales
  · intro hle
    rw [hout, List.take_of_length_le (by rw [hlen, scoreCards_length]; exact hle)]
    exact (List.reverse_perm _).trans
      ((List.perm_insertionSort _ _).trans (List.reverse_perm _))
  · rw [hout, List.length_take, hlen, scoreCards_length]
  · intro a b hab heq
    rw [rankCards, sort_values_desc]
    have hba : keyLE (fun s : ScoredCard => s.fit_score) b a := le_of_eq heq.symm
    have hrev : List.Sublist [b, a]
        (scoreCards (perCardStats sales)
          (perCardStats (agentSales sales agent_id))).reverse := by
      simpa using hab.reverse
    have : [a, b] = ([b, a]).reverse := rfl
    rw [this]
    exact (List.pair_sublist_insertionSort hba hrev).reverse

/-- Witness for C3: a two-record snapshot for agent 7 with distinct
fit scores; the recommendation list has no duplicate card ids. -/
theorem recommend_cards_props_witness :
    agentSales [⟨7, 1, 0, true, 100⟩, ⟨7, 2, 0, false, 0⟩] 7 ≠ [] ∧
      ((recommend_cards [⟨7, 1, 0, true, 100⟩, ⟨7, 2, 0, false, 0⟩] 7 5).map
        (·.perf.card_id)).Nodup :=
  ⟨by decide, (recommend_cards_props [⟨7, 1, 0, true, 100⟩, ⟨7, 2, 0, false, 0⟩] 7 5
      (by decide)).2.1⟩

/-! ### Lead generator (`src/services/lead_service.py`)

A synthesized lead as it enters the keep/sort/truncate stage of
`recommend_leads`: its predicted success probability and expected
commission (`None` when the commission predictor is untrained).  The
profile-synthesis loop and the predictor are randomized/external (spec §5
requires an injectable random source), so the per-candidate prediction
list `preds` is the input of the stage. -/

structure Lead where
  success_probability : ℚ
  expected_commission : Option ℚ
deriving DecidableEq, Repr

/-- Embeds `x['expected_commission'] if x['expected_commission'] is not None else 0`
(the first component of the sort key, `lead_service.py` lines 219-222). -/
def commission0 (l : Lead) : ℚ := l.expected_commission.getD 0

/-- Descending comparison used by
`leads.sort(key=lambda x: (commission, success_probability), reverse=True)`:
`a` may precede `b` iff `a`'s key is lexicographically at least `b`'s.
Python's sort is stable, and `reverse=True` keeps equal-key elements in
their original order. -/
def pairDesc (a b : Lead) : Prop :=
  commission0 b < commission0 a ∨
    (commission0 a = commission0 b ∧ b.success_probability ≤ a.success_probability)

instance : DecidableRel pairDesc :=
  fun a b => inferInstanceAs (Decidable (_ ∨ _))

instance : IsTotal Lead pairDesc := by
  constructor
  intro a b
  rcases lt_trichotomy (commission0 a) (commission0 b) with h | h | h
  · exact Or.inr (Or.inl h)
  · rcases le_total a.success_probability b.success_probability with hp | hp
    · exact Or.inr (Or.inr ⟨h.symm, hp⟩)
    · exact Or.inl (Or.inr ⟨h, hp⟩)
  · exact Or.inl (Or.inl h)

instance : IsTrans Lead pairDesc := by
  constructor
  intro a b c hab hbc
  rcases hab with h1 | ⟨h1, h1p⟩ <;> rcases hbc with h2 | ⟨h2, h2p⟩
  · exact Or.inl (lt_trans h2 h1)
  · exact Or.inl (h2 ▸ h1)
  · exact Or.inl (h1 ▸ h2)
  · exact Or.inr ⟨h1.trans h2, le_trans h2p h1p⟩

/-- Descending comparison used by the new-agent path
`leads.sort(key=lambda x: x['success_probability'], reverse=True)`
(`lead_service.py` line 389). -/
def probDesc (a b : Lead) : Prop :=
  b.success_probability ≤ a.success_probability

instance : DecidableRel probDesc :=
  fun a b => inferInstanceAs (Decidable (_ ≤ _))

instance : IsTotal Lead probDesc :=
  ⟨fun a b => le_total b.success_probability a.success_probability⟩

instance : IsTrans Lead probDesc :=
  ⟨fun _ _ _ h1 h2 => le_trans h2 h1⟩

/-- The keep/sort/truncate stage of `LeadService.recommend_leads` (lines
196-225) for an agent with sales history: keep a candidate only when its
predicted success probability is at least `0.4`, sort descending by the
key `(expected_commission or 0, success_probability)`, return the first
`limit`. -/
def recommend_leads_rank (preds : List Lead) (limit : ℕ) : List Lead :=
  (List.insertionSort pairDesc
    (preds.filter (fun p => decide ((0.4:ℚ) ≤ p.success_probability)))).take limit

/-- The keep/sort/truncate stage of
`LeadService._recommend_leads_for_new_agent` (lines 371-392): keep at
probability at least `0.5`, sort descending by success probability only,
return the first `limit`. -/
def recommend_leads_rank_new (preds : List Lead) (limit : ℕ) : List Lead :=
  (List.insertionSort probDesc
    (preds.filter (fun p => decide ((0.5:ℚ) ≤ p.success_probability)))).take limit

/-- C8 counterexample: for a new agent, the candidate predictions
`[{prob 0.6, comm 100}, {prob 0.55, comm 500}]` are both kept and returned
in that order (sorted by success probability only); the claimed descending
order by the pair `(expected_commission, success_probability)` would put
the `comm 500` lead first, so the returned list is not pair-sorted. -/
theorem recommend_leads_new_agent_counterexample :
    recommend_leads_rank_new [⟨0.6, some 100⟩, ⟨0.55, some 500⟩] 5 =
        [⟨0.6, some 100⟩, ⟨0.55, some 500⟩] ∧
      ¬ List.Pairwise pairDesc
        (recommend_leads_rank_new [⟨0.6, some 100⟩, ⟨0.55, some 500⟩] 5) := by
  have heval : recommend_leads_rank_new [⟨0.6, some 100⟩, ⟨0.55, some 500⟩] 5 =
      [⟨0.6, some 100⟩, ⟨0.55, some 500⟩] := by
    norm_num [recommend_leads_rank_new, List.insertionSort, List.orderedInsert,
      List.filter, probDesc]
  refine ⟨heval, ?_⟩
  rw [heval]
  intro hpair
  rcases List.pairwise_cons.mp hpair with ⟨hrel, -⟩
  have := hrel _ (List.mem_cons_self _ _)
  rcases this with h | ⟨h, -⟩ <;> norm_num [commission0] at h

/-- C8 amended: both paths keep a candidate only when its success
probability clears the threshold (`0.4` with history, `0.5` without),
return a subset of the candidates of size at most `limit`, and sort it
descending — by the pair `(expected_commission or 0, success_probability)`
on the history path, but by success probability alone on the new-agent
path. -/
theorem recommend_leads_rank_props (preds : List Lead) (limit : ℕ) :
    (∀ p ∈ recommend_leads_rank preds limit,
        (0.4:ℚ) ≤ p.success_probability ∧ p ∈ preds) ∧
      List.Pairwise pairDesc (recommend_leads_rank preds limit) ∧
      (recommend_leads_rank preds limit).length ≤ limit ∧
      (∀ p ∈ recommend_leads_rank_new preds limit,
        (0.5:ℚ) ≤ p.success_probability ∧ p ∈ preds) ∧
      List.Pairwise probDesc (recommend_leads_rank_new preds limit) ∧
      (recommend_leads_rank_new preds limit).length ≤ limit := by
  refine ⟨?_, ?_, ?_, ?_, ?_, ?_⟩
  · intro p hp
    have hp' := (List.mem_insertionSort pairDesc).mp ((List.take_sublist _ _).subset hp)
    have ⟨hmem, hdec⟩ := List.mem_filter.mp hp'
    exact ⟨of_decide_eq_true hdec, hmem⟩
  · exact List.Pairwise.sublist (List.take_sublist _ _)
      (List.sorted_insertionSort pairDesc _)
  · exact List.length_take_le _ _
  · intro p hp
    have hp' := (List.mem_insertionSort probDesc).mp ((List.take_sublist _ _).subset hp)
    have ⟨hmem, hdec⟩ := List.mem_filter.mp hp'
    exact ⟨of_decide_eq_true hdec, hmem⟩
  · exact List.Pairwise.sublist (List.take_sublist _ _)
      (List.sorted_insertionSort probDesc _)
  · exact List.length_take_le _ _

/-- Witness for C8 amended at the prediction list `[{prob 0.7, comm 100}]`
with `limit = 1`: the single kept lead clears the `0.4` threshold and came
from the candidate list. -/
theorem recommend_leads_rank_props_witness :
    (⟨0.7, some 100⟩ : Lead) ∈ recommend_leads_rank [⟨0.7, some 100⟩] 1 ∧
      ((0.4:ℚ) ≤ (0.7:ℚ) ∧ (⟨0.7, some 100⟩ : Lead) ∈ [(⟨0.7, some 100⟩ : Lead)]) := by
  have hmem : (⟨0.7, some 100⟩ : Lead) ∈ recommend_leads_rank [⟨0.7, some 100⟩] 1 := by
    norm_num [recommend_leads_rank, List.insertionSort, List.orderedInsert, List.filter]
  exact ⟨hmem, (recommend_leads_rank_props [⟨0.7, some 100⟩] 1).1 _ hmem⟩

/-! ### Forecast engine (`src/services/forecast_service.py`) -/

/-- Python 3 `round` to an integer: banker's rounding (half to even). -/
def pyRound (q : ℚ) : ℤ :=
  if q - ⌊q⌋ < 1/2 then ⌊q⌋
  else if 1/2 < q - ⌊q⌋ then ⌊q⌋ + 1
  else if ⌊q⌋ % 2 = 0 then ⌊q⌋ else ⌊q⌋ + 1

/-- Python `int()` of a float: truncation toward zero. -/
def pyInt (q : ℚ) : ℤ :=
  if q < 0 then ⌈q⌉ else ⌊q⌋

/-- One row of the generated forecast (the `month` label, a date string,
is dropped: it carries no numeric content). -/
structure ForecastMonth where
  total_sales : ℤ
  successful_sales : ℤ
  success_rate : ℚ
  commission : ℚ
  cumulative_commission : ℚ
deriving DecidableEq, Repr

/-- One iteration of the projection loop of
`ForecastService._generate_forecast_data` (lines 296-330): draw the noise
for the month, clamp the adjusted growth to `[-0.15, 0.35]`, grow the
previous total (at least 1), apply the success rate and the average
commission, and append the row with the running cumulative commission. -/
def forecastStep (success_rate avg_commission growth_rate : ℚ) (noise : ℕ → ℚ)
    (acc : List ForecastMonth × ℤ) (i : ℕ) : List ForecastMonth × ℤ :=
  let adjusted_growth := max (-0.15) (min (growth_rate + noise i) 0.35)
  let total_sales := max 1 (pyRound ((acc.2 : ℚ) * (1 + adjusted_growth)))
  let successful_sales := pyRound ((total_sales : ℚ) * success_rate)
  let commission := (successful_sales : ℚ) * avg_commission
  (acc.1 ++ [⟨total_sales, successful_sales, success_rate, commission,
      (acc.1.map (·.commission)).sum + commission⟩],
    total_sales)

/-- Embeds `ForecastService._generate_forecast_data`: clamp the base growth rate
to `[-0.1, 0.3]` and iterate the monthly projection starting from the last
historical month's total sales.  The Gaussian noise draws are the
injectable `noise` sequence (spec §5). -/
def generate_forecast_data (last_total : ℤ)
    (growth_rate success_rate avg_commission : ℚ) (forecast_months : ℕ)
    (noise : ℕ → ℚ) : List ForecastMonth :=
  ((List.range forecast_months).foldl
    (forecastStep success_rate avg_commission (max (-0.1) (min growth_rate 0.3)) noise)
    ([], last_total)).1

/-- One iteration of the projection loop of
`ForecastService._generate_new_agent_forecast` (lines 387-416): the row is
emitted for the current total, then the total grows by the current monthly
growth (at least 1) and the growth decays by `0.03` with floor `0.05`. -/
def newAgentStep (success_rate avg_commission : ℚ)
    (acc : List ForecastMonth × ℤ × ℚ) (_i : ℕ) : List ForecastMonth × ℤ × ℚ :=
  let successful_sales := pyRound ((acc.2.1 : ℚ) * success_rate)
  let commission := (successful_sales : ℚ) * avg_commission
  (acc.1 ++ [⟨acc.2.1, successful_sales, success_rate, commission,
      (acc.1.map (·.commission)).sum + commission⟩],
    max 1 (pyRound ((acc.2.1 : ℚ) * (1 + acc.2.2))),
    max 0.05 (acc.2.2 - 0.03))

/-- The forecast rows of `ForecastService._generate_new_agent_forecast`:
start from the estimated first-month sales volume with monthly growth
`0.2`. -/
def new_agent_forecast_data (first_month_sales : ℤ)
    (success_rate avg_commission : ℚ) (forecast_months : ℕ) : List ForecastMonth :=
  ((List.range forecast_months).foldl (newAgentStep success_rate avg_commission)
    ([], first_month_sales, 0.2)).1

/-- One row of the per-month aggregate
`agent_sales.groupby('month_year').agg(...)` with its derived columns
(`forecast_service.py` lines 60-83), in chronological order (pandas sorts
the group keys, and the subsequent `sort_values('date')` keeps that
order). -/
structure MonthlyStat where
  month : ℕ
  total_sales : ℕ
  successful_sales : ℕ
  success_rate : ℚ
  commission : ℚ
  avg_commission : ℚ
deriving DecidableEq, Repr

/-- The monthly aggregation of an agent's sales. -/
def monthlyStats (sales : List SaleRec) : List MonthlyStat :=
  (List.insertionSort (· ≤ ·) ((sales.map (·.month)).dedup)).map fun m =>
    let rows := sales.filter (fun r => r.month == m)
    let total := rows.length
    let succ := (rows.filter (·.success)).length
    let comm := (rows.map (·.commission)).sum
    ⟨m, total, succ, calculate_success_rate succ total,
      comm, calculate_avg_commission comm succ⟩

/-- The month-over-month growth column
`(total_sales - prev_sales) / prev_sales.replace(0, 1)` (lines 88-89); the
first month's `NaN` growth is dropped (`dropna`), leaving one entry per
consecutive pair. -/
def salesGrowths (monthly : List MonthlyStat) : List ℚ :=
  (monthly.zip monthly.tail).map fun p =>
    ((p.2.total_sales : ℚ) - (p.1.total_sales : ℚ)) /
      (if p.1.total_sales = 0 then 1 else (p.1.total_sales : ℚ))

/-- Embeds `pandas.Series.quantile(q)` with the default linear interpolation:
position `q * (n - 1)` in the sorted values, interpolating between the
neighbouring entries (the empty case, `NaN` in pandas, is modelled as `0`
and unreachable below). -/
def quantile (l : List ℚ) (q : ℚ) : ℚ :=
  let s := List.insertionSort (· ≤ ·) l
  let pos := q * ((l.length : ℚ) - 1)
  let vlo := s.getD (⌊pos⌋).toNat 0
  let vhi := s.getD ((⌊pos⌋).toNat + 1) vlo
  vlo + (pos - ⌊pos⌋) * (vhi - vlo)

/-- Embeds `growth_rates.between(quantile(0.05), quantile(0.95))` (line 93):
both bounds inclusive. -/
def trimmedGrowths (growths : List ℚ) : List ℚ :=
  growths.filter fun g =>
    decide (quantile growths 0.05 ≤ g) && decide (g ≤ quantile growths 0.95)

/-- Embeds `np.linspace(a, b, n)`: `n` evenly spaced values from `a` to `b`
inclusive (`[a]` when `n = 1`). -/
def linspace (a b : ℚ) (n : ℕ) : List ℚ :=
  if n = 1 then [a]
  else (List.range n).map fun i => a + (b - a) * (i : ℚ) / ((n : ℚ) - 1)

/-- Embeds `(series * weights).sum() / weights.sum()` (lines 99-105). -/
def weightedAvg (vals weights : List ℚ) : ℚ :=
  ((vals.zip weights).map fun p => p.1 * p.2).sum / weights.sum

/-- The parts of the dictionary returned by
`ForecastService.generate_forecast` that the claims are about (the
`summary` totals are sums over `forecast`, and `optimization` is
explanation text). -/
structure ForecastResult where
  historical : List MonthlyStat
  forecast : List ForecastMonth
  projected_growth : ℚ
deriving DecidableEq, Repr

/-- The trend path of `generate_forecast` (lines 86-136): average the
outlier-trimmed month-over-month growths (default `0.05` when none
remain), weight success rate and average commission by
`np.linspace(0.5, 1.0, n)`, and project from the last month's total. -/
def trendResult (monthly : List MonthlyStat) (forecast_months : ℕ)
    (noise : ℕ → ℚ) : ForecastResult :=
  let trimmed := trimmedGrowths (salesGrowths monthly)
  let avg_growth_rate := if 0 < trimmed.length then mean trimmed else 0.05
  let weights := linspace 0.5 1 monthly.length
  let avg_success_rate :=
    if 0 < monthly.length then weightedAvg (monthly.map (·.success_rate)) weights else 0.5
  let avg_commission :=
    if 0 < monthly.length then weightedAvg (monthly.map (·.avg_commission)) weights else 1000
  let last_total : ℤ := ((monthly.getLast?).map (fun m => (m.total_sales : ℤ))).getD 0
  ⟨monthly,
    generate_forecast_data last_total avg_growth_rate avg_success_rate
      avg_commission forecast_months noise,
    avg_growth_rate⟩

/-- Per agent (pandas `groupby('agent_id')`, sorted keys), the number of
that agent's sales falling in the agent's own first active month
(`forecast_service.py` lines 361-369; the first row by date lies in the
minimal month). -/
def firstMonthCounts (sales : List SaleRec) : List ℕ :=
  (List.insertionSort (· ≤ ·) ((sales.map (·.agent_id)).dedup)).map fun aid =>
    let rows := sales.filter (fun r => r.agent_id == aid)
    (rows.filter (fun r => r.month == listMin (rows.map (·.month)))).length

/-- Embeds `np.median`: middle element of the sorted values, or the mean of the
two middle elements for even length (empty case unreachable below). -/
def npMedian (l : List ℚ) : ℚ :=
  let s := List.insertionSort (· ≤ ·) l
  if l.length % 2 = 1 then s.getD (l.length / 2) 0
  else (s.getD (l.length / 2 - 1) 0 + s.getD (l.length / 2) 0) / 2

/-- Embeds `avg_first_month_sales = int(np.median(first_months))`, default `5`
when there are no per-agent counts (lines 371-377). -/
def estimate_first_month_sales (sales : List SaleRec) : ℤ :=
  if firstMonthCounts sales = [] then 5
  else pyInt (npMedian ((firstMonthCounts sales).map (fun n : ℕ => (n : ℚ))))

/-- Embeds `ForecastService._generate_new_agent_forecast` (lines 334-470): network
success-flag mean, mean commission over successful sales (default `1000`
when there are none), first-month volume from the per-agent median when the
date and agent columns exist (else `5`), projected growth `0.2`.  The
network snapshot being empty gives pandas `NaN` means; that case is
unreachable from the dispatch below and is modelled by `mean`'s `0`. -/
def newAgentResult (sales : List SaleRec) (has_date : Bool)
    (forecast_months : ℕ) : ForecastResult :=
  let avg_success_rate := mean (sales.map fun r => if r.success then (1:ℚ) else 0)
  let successful := sales.filter (·.success)
  let avg_commission :=
    if 0 < successful.length then mean (successful.map (·.commission)) else 1000
  let first := if has_date then estimate_first_month_sales sales else 5
  ⟨[], new_agent_forecast_data first avg_success_rate avg_commission forecast_months, 0.2⟩

/-- Embeds `ForecastService.generate_forecast` (lines 23-142): the new-agent path
when the agent has no sales; with sales but no date column, `None`; with a
date column, the trend path when at least two monthly data points exist,
else the new-agent path.  `has_date` says whether the snapshot has its
`date` column. -/
def generate_forecast (sales : List SaleRec) (has_date : Bool)
    (agent_id forecast_months : ℕ) (noise : ℕ → ℚ) : Option ForecastResult :=
  if (agentSales sales agent_id).isEmpty then
    some (newAgentResult sales has_date forecast_months)
  else if has_date then
    if 2 ≤ (monthlyStats (agentSales sales agent_id)).length then
      some (trendResult (monthlyStats (agentSales sales agent_id)) forecast_months noise)
    else some (newAgentResult sales has_date forecast_months)
  else none

/-! ### C6: the cumulative-commission identity -/

/-- Every forecast row's `cumulative_commission` equals the sum of the
`commission` column up to and including that row. -/
def CumOK (fc : List ForecastMonth) : Prop :=
  ∀ k, k < fc.length →
    (fc.getD k ⟨0, 0, 0, 0, 0⟩).cumulative_commission =
      ((fc.take (k + 1)).map (·.commission)).sum

theorem cumOK_nil : CumOK [] := by
  intro k hk
  simp at hk

theorem cumOK_append {fc : List ForecastMonth} {m : ForecastMonth}
    (h : CumOK fc)
    (hm : m.cumulative_commission = (fc.map (·.commission)).sum + m.commission) :
    CumOK (fc ++ [m]) := by
  intro k hk
  rcases Nat.lt_or_ge k fc.length with hlt | hge
  · rw [List.getD_eq_getElem?_getD, List.getElem?_append_left hlt,
      List.take_append_of_le_length (by omega), ← List.getD_eq_getElem?_getD]
    exact h k hlt
  · have hk' : k = fc.length := by
      simp only [List.length_append, List.length_singleton] at hk
      omega
    subst hk'
    rw [List.getD_eq_getElem?_getD, List.getElem?_concat_length,
      List.take_of_length_le (by simp)]
    simp [hm]

theorem generate_forecast_data_cumOK (last_total : ℤ)
    (growth_rate success_rate avg_commission : ℚ) (forecast_months : ℕ)
    (noise : ℕ → ℚ) :
    CumOK (generate_forecast_data last_total growth_rate success_rate
      avg_commission forecast_months noise) := by
  rw [generate_forecast_data]
  suffices h : ∀ (l : List ℕ) (acc : List ForecastMonth × ℤ), CumOK acc.1 →
      CumOK ((l.foldl (forecastStep success_rate avg_commission
        (max (-0.1) (min growth_rate 0.3)) noise) acc).1) from
    h _ _ cumOK_nil
  intro l
  induction l with
  | nil => exact fun acc h => h
  | cons i is ih =>
    intro acc h
    rw [List.foldl_cons]
    exact ih _ (cumOK_append h rfl)

theorem new_agent_forecast_data_cumOK (first_month_sales : ℤ)
    (success_rate avg_commission : ℚ) (forecast_months : ℕ) :
    CumOK (new_agent_forecast_data first_month_sales success_rate
      avg_commission forecast_months) := by
  rw [new_agent_forecast_data]
  suffices h : ∀ (l : List ℕ) (acc : List ForecastMonth × ℤ × ℚ), CumOK acc.1 →
      CumOK ((l.foldl (newAgentStep success_rate avg_commission) acc).1) from
    h _ _ cumOK_nil
  intro l
  induction l with
  | nil => exact fun acc h => h
  | cons i is ih =>
    intro acc h
    rw [List.foldl_cons]
    exact ih _ (cumOK_append h rfl)

/-- C6: on both the trend path and the new-agent path, the
`cumulative_commission` of the `k`-th forecast month equals exactly the sum
of the `commission` values of months `1..k`, for every parameterization and
every noise sequence. -/
theorem forecast_cumulative_commission (last_total first_month_sales : ℤ)
    (growth_rate success_rate avg_commission success_rate2 avg_commission2 : ℚ)
    (forecast_months forecast_months2 : ℕ) (noise : ℕ → ℚ) :
    (∀ k, k < (generate_forecast_data last_total growth_rate success_rate
        avg_commission forecast_months noise).length →
      ((generate_forecast_data last_total growth_rate success_rate
          avg_commission forecast_months noise).getD k ⟨0, 0, 0, 0, 0⟩).cumulative_commission =
        (((generate_forecast_data last_total growth_rate success_rate
            avg_commission forecast_months noise).take (k + 1)).map (·.commission)).sum) ∧
    (∀ k, k < (new_agent_forecast_data first_month_sales success_rate2
        avg_commission2 forecast_months2).length →
      ((new_agent_forecast_data first_month_sales success_rate2
          avg_commission2 forecast_months2).getD k ⟨0, 0, 0, 0, 0⟩).cumulative_commission =
        (((new_agent_forecast_data first_month_sales success_rate2
            avg_commission2 forecast_months2).take (k + 1)).map (·.commission)).sum) :=
  ⟨generate_forecast_data_cumOK last_total growth_rate success_rate
      avg_commission forecast_months noise,
    new_agent_forecast_data_cumOK first_month_sales success_rate2
      avg_commission2 forecast_months2⟩

/-- Witness for C6 at a two-month trend forecast (last total `5`, growth
`0`, success rate `1`, average commission `100`, zero noise): the second
month's cumulative commission `1000` is the sum of the two monthly
commissions `500 + 500`. -/
theorem forecast_cumulative_commission_witness :
    1 < (generate_forecast_data 5 0 1 100 2 (fun _ => 0)).length ∧
      ((generate_forecast_data 5 0 1 100 2 (fun _ => 0)).getD 1
          ⟨0, 0, 0, 0, 0⟩).cumulative_commission =
        (((generate_forecast_data 5 0 1 100 2 (fun _ => 0)).take (1 + 1)).map
          (·.commission)).sum := by
  have heval : generate_forecast_data 5 0 1 100 2 (fun _ => 0) =
      [⟨5, 5, 1, 500, 500⟩, ⟨5, 5, 1, 500, 1000⟩] := by
    norm_num [generate_forecast_data, forecastStep, pyRound, List.range_succ]
  refine ⟨by rw [heval]; norm_num, ?_⟩
  exact (forecast_cumulative_commission 5 5 0 1 100 1 100 2 2 (fun _ => 0)).1 1
    (by rw [heval]; norm_num)

/-! ### C10: forecast totals never fall below one sale -/

theorem generate_forecast_data_total_pos (last_total : ℤ)
    (growth_rate success_rate avg_commission : ℚ) (forecast_months : ℕ)
    (noise : ℕ → ℚ) :
    ∀ m ∈ generate_forecast_data last_total growth_rate success_rate
      avg_commission forecast_months noise, 1 ≤ m.total_sales := by
  rw [generate_forecast_data]
  suffices h : ∀ (l : List ℕ) (acc : List ForecastMonth × ℤ),
      (∀ m ∈ acc.1, 1 ≤ m.total_sales) →
      ∀ m ∈ (l.foldl (forecastStep success_rate avg_commission
        (max (-0.1) (min growth_rate 0.3)) noise) acc).1, 1 ≤ m.total_sales from
    h _ _ (by simp)
  intro l
  induction l with
  | nil => exact fun acc h => h
  | cons i is ih =>
    intro acc h
    rw [List.foldl_cons]
    refine ih _ ?_
    intro m hm
    rcases List.mem_append.mp hm with hm' | hm'
    · exact h m hm'
    · rcases List.mem_singleton.mp hm' with rfl
      exact le_max_left 1 _

theorem new_agent_forecast_data_total_pos (first_month_sales : ℤ)
    (success_rate avg_commission : ℚ) (forecast_months : ℕ)
    (hfirst : 1 ≤ first_month_sales) :
    ∀ m ∈ new_agent_forecast_data first_month_sales success_rate
      avg_commission forecast_months, 1 ≤ m.total_sales := by
  rw [new_agent_forecast_data]
  suffices h : ∀ (l : List ℕ) (acc : List ForecastMonth × ℤ × ℚ),
      (∀ m ∈ acc.1, 1 ≤ m.total_sales) → 1 ≤ acc.2.1 →
      ∀ m ∈ (l.foldl (newAgentStep success_rate avg_commission) acc).1,
        1 ≤ m.total_sales from
    h _ _ (by simp) hfirst
  intro l
  induction l with
  | nil => exact fun acc h _ => h
  | cons i is ih =>
    intro acc h hpos
    rw [List.foldl_cons]
    refine ih _ ?_ (le_max_left 1 _)
    intro m hm
    rcases List.mem_append.mp hm with hm' | hm'
    · exact h m hm'
    · rcases List.mem_singleton.mp hm' with rfl
      exact hpos

/-- Every per-agent first-month sale count is at least `1`: each grouped
agent contributed at least one row, and the row with the minimal month is
counted. -/
theorem firstMonthCounts_pos (sales : List SaleRec) :
    ∀ c ∈ firstMonthCounts sales, 1 ≤ c := by
  intro c hc
  rw [firstMonthCounts] at hc
  obtain ⟨aid, haid, rfl⟩ := List.mem_map.mp hc
  have haid2 : aid ∈ sales.map (·.agent_id) :=
    List.mem_dedup.mp ((List.mem_insertionSort _).mp haid)
  obtain ⟨r, hr, hr2⟩ := List.mem_map.mp haid2
  have hrmem : r ∈ sales.filter (fun r => r.agent_id == aid) :=
    List.mem_filter.mpr ⟨hr, by simp [hr2]⟩
  have hmapne : (sales.filter (fun r => r.agent_id == aid)).map (·.month) ≠ [] := by
    simp only [ne_eq, List.map_eq_nil_iff]
    intro h0
    rw [h0] at hrmem
    cases hrmem
  obtain ⟨r0, hr0, hr0m⟩ := List.mem_map.mp (listMin_mem hmapne)
  have hr0' : r0 ∈ (sales.filter (fun r => r.agent_id == aid)).filter
      (fun r => r.month == listMin ((sales.filter
        (fun r => r.agent_id == aid)).map (·.month))) :=
    List.mem_filter.mpr ⟨hr0, by simp [hr0m]⟩
  exact List.length_pos_of_mem hr0'

theorem npMedian_ge_one {l : List ℚ} (hne : l ≠ []) (h : ∀ x ∈ l, (1:ℚ) ≤ x) :
    1 ≤ npMedian l := by
  rw [npMedian]
  have hlen : (List.insertionSort (· ≤ ·) l).length = l.length :=
    List.length_insertionSort _ _
  have hmem : ∀ i, i < l.length → (1:ℚ) ≤ (List.insertionSort (· ≤ ·) l).getD i 0 := by
    intro i hi
    rw [List.getD_eq_getElem _ _ (by omega)]
    exact h _ ((List.mem_insertionSort _).mp (List.getElem_mem _))
  have hlpos : 0 < l.length := List.length_pos.mpr hne
  split_ifs with hodd
  · exact hmem _ (by omega)
  · have h2 : 2 ≤ l.length := by omega
    have ha := hmem (l.length / 2 - 1) (by omega)
    have hb := hmem (l.length / 2) (by omega)
    linarith

theorem estimate_first_month_sales_pos (sales : List SaleRec) :
    1 ≤ estimate_first_month_sales sales := by
  rw [estimate_first_month_sales]
  split_ifs with h
  · norm_num
  · have h1 : ∀ x ∈ (firstMonthCounts sales).map (fun n : ℕ => (n : ℚ)), (1:ℚ) ≤ x := by
      intro x hx
      obtain ⟨c, hc, hcx⟩ := List.mem_map.mp hx
      rw [← hcx]
      exact_mod_cast firstMonthCounts_pos sales c hc
    have hne : (firstMonthCounts sales).map (fun n : ℕ => (n : ℚ)) ≠ [] := by
      simp only [ne_eq, List.map_eq_nil_iff]
      exact h
    have hmed := npMedian_ge_one hne h1
    rw [pyInt, if_neg (by linarith)]
    exact Int.le_floor.mpr (by exact_mod_cast hmed)

theorem newAgentResult_total_pos (sales : List SaleRec) (has_date : Bool)
    (forecast_months : ℕ) :
    ∀ m ∈ (newAgentResult sales has_date forecast_months).forecast,
      1 ≤ m.total_sales := by
  intro m hm
  refine new_agent_forecast_data_total_pos _ _ _ _ ?_ m hm
  cases has_date with
  | true => exact estimate_first_month_sales_pos sales
  | false => norm_num

/-- C10: in every forecast produced by `generate_forecast` — on the trend
path and on the new-agent path alike — each forecast month's `total_sales`
is at least `1`, no matter how negative the adjusted growth rate becomes
(the trend projection clamps each month at `max(1, ·)`, and the new-agent
path starts from a first-month estimate that is a median of per-agent
counts that are each at least 1, or the default 5). -/
theorem generate_forecast_total_sales_pos (sales : List SaleRec)
    (has_date : Bool) (agent_id forecast_months : ℕ) (noise : ℕ → ℚ)
    (res : ForecastResult)
    (hres : generate_forecast sales has_date agent_id forecast_months noise = some res) :
    ∀ m ∈ res.forecast, 1 ≤ m.total_sales := by
  rw [generate_forecast] at hres
  split_ifs at hres with h1 h2 h3
  · obtain rfl := Option.some.inj hres
    exact newAgentResult_total_pos sales has_date forecast_months
  · obtain rfl := Option.some.inj hres
    intro m hm
    exact generate_forecast_data_total_pos _ _ _ _ _ _ m hm
  · obtain rfl := Option.some.inj hres
    exact newAgentResult_total_pos sales has_date forecast_months

/-- Witness for C10: the concrete one-month new-agent forecast for an
agent with no sales over the snapshot `[{agent 7, card 1, success, ₹100}]`
without a date column; its single month has `total_sales = 5 ≥ 1`. -/
theorem generate_forecast_total_sales_pos_witness :
    generate_forecast [⟨7, 1, 3, true, 100⟩] false 9 1 (fun _ => 0) =
        some ⟨[], [⟨5, 5, 1, 500, 500⟩], 0.2⟩ ∧
      1 ≤ (ForecastMonth.mk 5 5 1 500 500).total_sales := by
  have hagent : agentSales [⟨7, 1, 3, true, 100⟩] 9 = [] := rfl
  have heval : generate_forecast [⟨7, 1, 3, true, 100⟩] false 9 1 (fun _ => 0) =
      some ⟨[], [⟨5, 5, 1, 500, 500⟩], 0.2⟩ := by
    norm_num [generate_forecast, hagent, newAgentResult, mean,
      new_agent_forecast_data, newAgentStep, pyRound, List.range_succ, List.filter]
  exact ⟨heval, generate_forecast_total_sales_pos _ _ _ _ _ _ heval _ (by simp)⟩

/-! ### C9: one historical month falls through to the new-agent path -/

theorem dedup_all_eq_length_one {l : List ℕ} (hne : l ≠ [])
    (hall : ∀ a ∈ l, ∀ b ∈ l, a = b) : l.dedup.length = 1 := by
  have hnodup := l.nodup_dedup
  rcases hd : l.dedup with _ | ⟨x, _ | ⟨y, rest⟩⟩
  · rw [List.dedup_eq_nil] at hd
    exact absurd hd hne
  · rfl
  · exfalso
    have hx : x ∈ l := List.mem_dedup.mp (hd ▸ List.mem_cons_self _ _)
    have hy : y ∈ l :=
      List.mem_dedup.mp (hd ▸ List.mem_cons_of_mem _ (List.mem_cons_self _ _))
    have hxy := hall x hx y hy
    rw [hd] at hnodup
    exact (List.nodup_cons.mp hnodup).1 (by rw [hxy]; exact List.mem_cons_self _ _)

theorem monthlyStats_length_one {sales : List SaleRec} (hne : sales ≠ [])
    (hall : ∀ r ∈ sales, ∀ s ∈ sales, r.month = s.month) :
    (monthlyStats sales).length = 1 := by
  rw [monthlyStats, List.length_map, List.length_insertionSort]
  apply dedup_all_eq_length_one
  · simpa [List.map_eq_nil_iff] using hne
  · intro a ha b hb
    obtain ⟨r, hr, rfl⟩ := List.mem_map.mp ha
    obtain ⟨s, hs, rfl⟩ := List.mem_map.mp hb
    exact hall r hr s hs

/-- C9: an agent whose sales history spans exactly one calendar month
(fewer than 2 monthly data points) is routed by `generate_forecast` to the
new-agent forecast path — the trend (growth-rate) computation never runs —
and a sales snapshot without a date column yields `None` rather than an
exception. -/
theorem generate_forecast_single_month (sales : List SaleRec)
    (agent_id forecast_months : ℕ) (noise : ℕ → ℚ)
    (h1 : agentSales sales agent_id ≠ [])
    (h2 : ∀ r ∈ agentSales sales agent_id, ∀ s ∈ agentSales sales agent_id,
      r.month = s.month) :
    generate_forecast sales true agent_id forecast_months noise =
        some (newAgentResult sales true forecast_months) ∧
      generate_forecast sales false agent_id forecast_months noise = none := by
  have hne : ¬ (agentSales sales agent_id).isEmpty = true := by
    simpa [List.isEmpty_iff] using h1
  have hlen := monthlyStats_length_one h1 h2
  constructor
  · simp [generate_forecast, hne, hlen]
  · simp [generate_forecast, hne]

/-- Witness for C9 at the single-record snapshot
`[{agent 7, card 1, month 3, success, ₹100}]`: agent 7's history spans one
month, and the produced forecast is exactly the new-agent one. -/
theorem generate_forecast_single_month_witness :
    agentSales [⟨7, 1, 3, true, 100⟩] 7 ≠ [] ∧
      generate_forecast [⟨7, 1, 3, true, 100⟩] true 7 1 (fun _ => 0) =
        some (newAgentResult [⟨7, 1, 3, true, 100⟩] true 1) :=
  ⟨by decide,
    (generate_forecast_single_month [⟨7, 1, 3, true, 100⟩] 7 1 (fun _ => 0)
      (by decide) (by decide)).1⟩

end SalesAnalysis
